import Mathlib

/-!
Shallow embedding of the entity-linking annotation tool (src/main.py of the
repository, together with the parts of its model module that the spec
describes).  Python strings are modelled as Lean `String`s (lists of
characters); Python `None` becomes `Option.none`; Python exceptions that the
dispatch loop does not catch are modelled with `Except PyError`.

Renamings forced by the verification environment (the embedded source names
are kept in comments at each definition):
  * the class LinkAnnotation  is embedded as `LinkRecord`;
  * the class LinkAnnotations is embedded as `LinkStore`
    (its field `records` models the ordered record list / file lines);
  * the Annotator attribute `annotations` is embedded as the field `store`;
  * `config.CONTEXT_SIZE` (a mutable global) is the field `contextSize`.
-/

/-- One occurrence of a named entity in one document (spec section 3,
"Mention": surface text, entity class, owning document, contiguous extent). -/
structure Mention where
  text : String
  entityClass : String
  fileName : String
  start : Nat
  stop : Nat
deriving DecidableEq, Repr

/-- A single document: its name, raw text (for context windows), its ordered
mentions, and the mapping from surface text to the resolved link the file has
seen so far (spec section 4.3: "each SourceFile keeps a mapping from surface
text to the resolved annotation it has seen so far").  In `data`, an absent
key means the file has no entity type with that text; `some none` means the
entity type is present but not yet annotated; `some (some l)` means it was
resolved to link `l` (where `l = ""` is the empty-link sentinel). -/
structure SourceFile where
  name : String
  text : String
  mentions : List Mention
  data : List (String × Option String)
deriving DecidableEq, Repr

/-- The group of all mentions sharing one surface text (spec section 3,
"EntityType"); `link` is the transient resolved value (`none` until a
decision is made). -/
structure EntityType where
  text : String
  entityClass : String
  link : Option String
  mentions : List Mention
deriving DecidableEq, Repr

/-- The corpus: its SourceFiles, the derived traversal list of entity types,
and the traversal cursor (spec section 4.1: the cursor never rewinds). -/
structure Corpus where
  files : List SourceFile
  entityTypes : List EntityType
  cursor : Nat
  folder : String
deriving DecidableEq, Repr

/-- One persisted annotation record (the class LinkAnnotation of the model
module; spec section 6: identifier, document identifier, offsets, surface
text, entity class, link). -/
structure LinkRecord where
  identifier : Nat
  fileName : String
  start : Nat
  stop : Nat
  text : String
  entityClass : String
  link : String
deriving DecidableEq, Repr

/-- The append-only annotation store (the class LinkAnnotations of the model
module); `records` is in insertion order, which equals file order. -/
structure LinkStore where
  records : List LinkRecord
deriving DecidableEq, Repr

/-- Python exceptions that escape the command dispatch (uncaught in main.py's
`loop`, hence process-terminating), plus the NotFound condition of
`get_annotation` (spec section 4.2). -/
inductive PyError where
  | valueError : PyError
  | notFound : Int → PyError
  | zeroDivision : PyError
deriving DecidableEq, Repr

/-- The fixed encyclopedia base URL (main.py docstring: links expand to
https://en.wikipedia.org/wiki/...). -/
def wikiBase : List Char := "https://en.wikipedia.org/wiki/".data

/-- A value "that is already a full URL" (spec section 4.2): it carries an
http or https scheme. -/
def isUrl (l : List Char) : Prop :=
  l.take 7 = "http://".data ∨ l.take 8 = "https://".data

instance (l : List Char) : Decidable (isUrl l) := by
  unfold isUrl; infer_instance

/-- Modelled from the spec: `LinkAnnotations.normalize_link` of the missing
model module (spec section 4.2): empty or dash input yields the empty-link
sentinel (the internally empty string, distinct from the null
"not yet annotated" state, and the only falsy value `validate_link` accepts);
a value that is already a full URL passes through unchanged; a bare title has
its spaces turned into underscores and is prefixed with the encyclopedia base
URL. -/
def normalize_link (link : String) : String :=
  if link = "" ∨ link = "-" then ""
  else if isUrl link.data then link
  else String.mk (wikiBase ++ link.data.map (fun c => if c = ' ' then '_' else c))

/-- The method `Corpus.get_files` of the model module: the corpus's SourceFiles. -/
def Corpus.get_files (c : Corpus) : List SourceFile := c.files

/-- The `suggestions` list built by `Annotator.suggest_link` (main.py lines
202-206): for each corpus file, `corpus_file.data.get(entity_text)` is read
and its link appended when neither the entry nor its link is None — so each
file contributes at most one vote, the single resolved entry its map stores
for that surface text. -/
def collectSuggestions (files : List SourceFile) (entityText : String) : List String :=
  files.filterMap (fun f => (List.lookup entityText f.data).bind id)

/-- The distinct elements of a list in first-occurrence order: the key order
of `collections.Counter(suggestions)` (Python dicts preserve insertion
order; a Counter key is inserted at its first occurrence). -/
def dedupFirstAux (seen : List String) : List String → List String
  | [] => []
  | x :: xs => if x ∈ seen then dedupFirstAux seen xs else x :: dedupFirstAux (x :: seen) xs

def dedupFirst (l : List String) : List String := dedupFirstAux [] l

/-- The element an in-order scan keeps when it replaces its candidate only on
a strictly larger count: this is the head of `Counter.most_common()`, because
`most_common` sorts the keys stably by descending count, so the head is the
first-inserted key of maximal count. -/
def champion (cnt : String → Nat) (b : String) : List String → String
  | [] => b
  | x :: xs => if cnt b < cnt x then champion cnt x xs else champion cnt b xs

/-- Embeds `collections.Counter(suggestions).most_common()[0][0]` with the
IndexError of an empty counter caught and turned into None (main.py lines
207-211). -/
def mostCommon (l : List String) : Option String :=
  match dedupFirst l with
  | [] => none
  | x :: xs => some (champion (fun y => l.count y) x xs)

/-- Embeds `Annotator.suggest_link` (main.py lines 201-211). -/
def suggest_link (files : List SourceFile) (entityText : String) : Option String :=
  mostCommon (collectSuggestions files entityText)

def fileJimA : SourceFile :=
  { name := "cpb-aacip-507-0001"
    text := ""
    mentions := []
    data := [("Jim Lehrer", some "https://en.wikipedia.org/wiki/Jim_Lehrer")] }

def fileJimB : SourceFile :=
  { name := "cpb-aacip-507-0002"
    text := ""
    mentions := []
    data := [("Jim Lehrer", some "https://en.wikipedia.org/wiki/Jim_Lehrer")] }

def fileAcme : SourceFile :=
  { name := "cpb-aacip-507-0003"
    text := ""
    mentions := []
    data := [("Acme Corp", some "")] }

/-- Embeds `Annotator.validate_link` (main.py lines 193-199): the empty link is
always accepted; otherwise the external existence check decides (the
`requests.get(link).status_code == 200` call is the black-box predicate
`valid` of spec section 4.4). -/
def validate_link (valid : String → Bool) (link : String) : Bool :=
  if link = "" then true else valid link

/-- The digit-string part of Python `int(s)`: none on an empty or non-digit
string (PEP 515 underscore separators are not modelled; no claim exercises
them). -/
def digitsVal : List Char → Option Nat
  | [] => none
  | cs => cs.foldl (fun acc c =>
      acc.bind (fun n => if c.isDigit then some (n * 10 + (c.toNat - 48)) else none))
      (some 0)

def stripEnds (cs : List Char) : List Char :=
  ((cs.dropWhile Char.isWhitespace).reverse.dropWhile Char.isWhitespace).reverse

/-- Python `int(s)` on a string: surrounding whitespace stripped, optional
sign, then a non-empty digit string; none models the ValueError raise. -/
def pyInt (s : String) : Option Int :=
  match stripEnds s.data with
  | '-' :: rest => (digitsVal rest).map (fun n => -(n : Int))
  | '+' :: rest => (digitsVal rest).map (fun n => (n : Int))
  | cs => (digitsVal cs).map (fun n => (n : Int))

/-- Python `identifier_and_link.split(' ', 1)` followed by unpacking into two
variables (main.py line 149): the part before the first space and the rest;
with no space present the unpacking raises ValueError (modelled as none). -/
def splitOnce : List Char → Option (List Char × List Char)
  | [] => none
  | c :: cs =>
    if c = ' ' then some ([], cs)
    else (splitOnce cs).map (fun p => (c :: p.1, p.2))

/-- Modelled from the spec: `SourceFile.get_context` of the missing model
module — the context window of the configured size around a mention (spec
section 6: "a context window of a configurable size around the mention").
A non-positive size yields empty windows. -/
def get_context (size : Int) (f : SourceFile) (m : Mention) : String × String :=
  (String.mk (((f.text.data.take m.start).reverse.take size.toNat).reverse),
   String.mk ((f.text.data.drop m.stop).take size.toNat))

/-- Modelled from the spec: the next unique identifier assigned by the store
(spec section 3: identifiers are monotonically assigned, unique, never
reused). -/
def LinkStore.nextId (s : LinkStore) : Nat :=
  (s.records.map (fun r => r.identifier)).foldr max 0 + 1

/-- Modelled from the spec: `LinkAnnotations.add_link` — appends one new
record per entity-type decision with the next unique identifier; document
and offset metadata come from the group's first mention.  (The null-entity
no-op guard sits in the caller, main.py line 135.) -/
def LinkStore.add_link (s : LinkStore) (et : EntityType) (link : String) : LinkStore :=
  { records := s.records ++
      [{ identifier := s.nextId
         fileName := (et.mentions.head?.map (fun m => m.fileName)).getD ""
         start := (et.mentions.head?.map (fun m => m.start)).getD 0
         stop := (et.mentions.head?.map (fun m => m.stop)).getD 0
         text := et.text
         entityClass := et.entityClass
         link := link }] }

/-- Modelled from the spec: `LinkAnnotations.get_annotation` — exact lookup
by identifier, the latest matching record winning (spec section 3: "the
current value for identifier X" is the latest record matching X); none is
the NotFound condition. -/
def LinkStore.getRecord (s : LinkStore) (i : Int) : Option LinkRecord :=
  s.records.reverse.find? (fun r => (r.identifier : Int) = i)

/-- Modelled from the spec: `LinkAnnotations.create_link` — a replacement
record copying the old record's descriptive fields with the new link and a
fresh identifier (spec section 4.2).  main.py line 155 serialises the result
to a tab-separated line and reparses it, which is the identity on records
whose fields contain no tab. -/
def LinkStore.createFrom (s : LinkStore) (link : String) (old : LinkRecord) : LinkRecord :=
  { old with identifier := s.nextId, link := link }

/-- Modelled from the spec: `LinkAnnotations.save_annotation` — appends one
record line to the persisted store, never rewriting existing lines. -/
def LinkStore.saveRecord (s : LinkStore) (r : LinkRecord) : LinkStore :=
  { records := s.records ++ [r] }

/-- An entity type already has a stored decision (spec section 3, Corpus
invariant: already-annotated entity types are skipped, derived from the
store's state). -/
def isAnnotated (s : LinkStore) (et : EntityType) : Bool :=
  s.records.any (fun r => r.text = et.text)

/-- Scan of the traversal list from the cursor for the first entity type
without a stored decision, returned with the cursor position just past it. -/
def findNextOutstanding (s : LinkStore) : List EntityType → Nat → Option (EntityType × Nat)
  | [], _ => none
  | et :: rest, i =>
    if isAnnotated s et then findNextOutstanding s rest (i + 1)
    else some (et, i + 1)

/-- Modelled from the spec: `Corpus.next` (spec section 4.1) — the lazy
single-pass traversal yields the next entity type not yet present in the
store and advances the cursor past it; the cursor never rewinds; none is the
terminal signal of the pass (CorpusExhausted). -/
def corpusNext (s : LinkStore) (c : Corpus) : Option (EntityType × Corpus) :=
  (findNextOutstanding s (c.entityTypes.drop c.cursor) c.cursor).map
    (fun p => (p.1, { c with cursor := p.2 }))

/-- Observable console output of one command (ANSI colouring and column
padding are display-only and omitted).  Warning constructors carry the data
interpolated into the corresponding `Warnings` template of main.py, so a
warning event names exactly what the printed warning names. -/
inductive Event where
  | warnNoEntity : Event
  | warnUnknownCommand : Event
  | warnNoLinkSuggestion : Event
  | warnNotInWikipedia : String → Event
  | warnContextSize : Event
  | printedEntity : String → String → Event
  | contextLine : String → String → String → Event
  | suggestionShown : String → Event
  | exhausted : Event
deriving DecidableEq, Repr

/-- The Annotator's mutable state (main.py lines 77-82) together with the
global `config.CONTEXT_SIZE` it reads and writes. -/
structure AnnotatorState where
  corpus : Corpus
  nextEntity : Option EntityType
  linkSuggestion : Option String
  store : LinkStore
  contextSize : Int
deriving DecidableEq, Repr

/-- The effect of `self.next_entity.link = link` (main.py lines 129 and 137)
on the corpus: the entity objects held in each SourceFile's surface-text map
alias the entity type being annotated, so the decision becomes visible in
every file's map entry for that text (spec sections 3 and 4.3: one decision
links all mentions with that surface text simultaneously, and each file's
map holds the resolved annotation it has seen). -/
def setLink (files : List SourceFile) (t : String) (link : String) : List SourceFile :=
  files.map (fun f =>
    { f with data := f.data.map (fun p => if p.1 = t then (p.1, some link) else p) })

/-- Embeds `Annotator.action_print_next` (main.py lines 160-172): fetch the next
entity from the traversal, print it with one context line per mention
(each mention's file looked up by name; a mention whose file name is absent
would raise in Python and is skipped here — no claim exercises it),
recompute the link suggestion, and show it only when truthy (Python
`if self.link_suggestion:` is false both for None and for the empty
sentinel).  On exhaustion the spec's CorpusExhausted terminal signal is
reported instead (spec section 7). -/
def action_print_next (st : AnnotatorState) : AnnotatorState × List Event :=
  match corpusNext st.store st.corpus with
  | none => ({ st with nextEntity := none, linkSuggestion := none }, [Event.exhausted])
  | some (et, c') =>
    let sugg := suggest_link c'.get_files et.text
    let ctx := et.mentions.filterMap (fun m =>
      (c'.files.find? (fun f => f.name = m.fileName)).map (fun f =>
        let lr := get_context st.contextSize f m
        Event.contextLine lr.1 et.text lr.2))
    ({ st with corpus := c', nextEntity := some et, linkSuggestion := sugg },
     Event.printedEntity et.text et.entityClass :: ctx ++
       (match sugg with
        | some l => if l = "" then [] else [Event.suggestionShown l]
        | none => []))

/-- Embeds `Annotator.action_accept_hint` (main.py lines 122-131). -/
def action_accept_hint (st : AnnotatorState) : AnnotatorState × List Event :=
  match st.nextEntity with
  | none => (st, [Event.warnNoEntity])
  | some et =>
    match st.linkSuggestion with
    | none =>
      let r := action_print_next st
      (r.1, Event.warnNoLinkSuggestion :: r.2)
    | some l =>
      let et' := { et with link := some l }
      action_print_next { st with
        corpus := { st.corpus with files := setLink st.corpus.files et.text l }
        nextEntity := some et'
        store := st.store.add_link et' l }

/-- Embeds `Annotator.action_store_link` (main.py lines 133-146); the command loop
passes the dash for a bare `l` command (line 112); `valid` is the external
existence check consumed by `validate_link`. -/
def action_store_link (valid : String → Bool) (rawLink : String)
    (st : AnnotatorState) : AnnotatorState × List Event :=
  let link := normalize_link rawLink
  match st.nextEntity with
  | none => (st, [Event.warnNoEntity])
  | some et =>
    if validate_link valid link then
      let et' := { et with link := some link }
      action_print_next { st with
        corpus := { st.corpus with files := setLink st.corpus.files et.text link }
        nextEntity := some et'
        store := st.store.add_link et' link }
    else
      let r := action_print_next st
      (r.1, Event.warnNotInWikipedia link :: r.2)

/-- Embeds `Annotator.action_fix_link` (main.py lines 148-158): split the argument
at the first space, parse the identifier with `int(...)` (an unparsable
identifier raises ValueError, which the dispatch loop does not catch),
normalize and validate the link, and on success append the replacement
record; a missing record identifier raises the NotFound condition of
`get_annotation` (spec section 4.2), likewise uncaught. -/
def action_fix_link (valid : String → Bool) (arg : String)
    (st : AnnotatorState) : Except PyError (AnnotatorState × List Event) :=
  match splitOnce arg.data with
  | none => Except.error PyError.valueError
  | some (idPart, linkPart) =>
    match pyInt (String.mk idPart) with
    | none => Except.error PyError.valueError
    | some i =>
      let link := normalize_link (String.mk linkPart)
      if validate_link valid link then
        match st.store.getRecord i with
        | none => Except.error (PyError.notFound i)
        | some old =>
          Except.ok
            ({ st with store := st.store.saveRecord (st.store.createFrom link old) }, [])
      else
        Except.ok (st, [Event.warnNotInWikipedia link])

/-- Embeds `Annotator.action_set_context` (main.py lines 185-191): `int(...)` with
only ValueError caught — any parsable integer, negative included, is stored
verbatim into `config.CONTEXT_SIZE`; anything else warns and keeps the old
size. -/
def action_set_context (arg : String) (st : AnnotatorState) :
    AnnotatorState × List Event :=
  match pyInt arg with
  | some n => ({ st with contextSize := n }, [])
  | none => (st, [Event.warnContextSize])

/-- CPython `round()` on the exact rational value (half-to-even banker's
rounding; binary floating-point representation error is not modelled). -/
def pyRound (q : ℚ) : Int :=
  if q - (⌊q⌋ : ℚ) < 1 / 2 then ⌊q⌋
  else if 1 / 2 < q - (⌊q⌋ : ℚ) then ⌊q⌋ + 1
  else if ⌊q⌋ % 2 = 0 then ⌊q⌋ else ⌊q⌋ + 1

/-- Modelled from the spec: `SourceFile.status` of the missing model module —
(total distinct entity types, number already annotated, percent complete),
where a file with zero entity types reports 0% rather than dividing by zero
(spec sections 4.1 and 8). -/
def SourceFile.status (f : SourceFile) : Nat × Nat × ℚ :=
  (f.data.length,
   (f.data.filter (fun p => p.2.isSome)).length,
   if f.data.length = 0 then 0
   else ((f.data.filter (fun p => p.2.isSome)).length : ℚ) / (f.data.length : ℚ) * 100)

/-- Modelled from the spec: `SourceFile.entity_type_count` — the number of
distinct entity types of the file, printed in the file's status row. -/
def SourceFile.entity_type_count (f : SourceFile) : Nat := f.data.length

def corpusTypes (c : Corpus) : Nat := (c.files.map (fun f => f.status.1)).sum

def corpusTypesDone (c : Corpus) : Nat := (c.files.map (fun f => f.status.2.1)).sum

/-- Embeds `Annotator.status` (main.py lines 213-225): one row per file (name,
entity-type count, rounded file percentage), then the corpus-wide summary
`round((corpus_types_done / corpus_types) * 100)` — an unguarded division
that raises ZeroDivisionError when the corpus has zero entity types in
total. -/
def Annotator.status (c : Corpus) :
    List (String × Nat × Int) × Except PyError (Nat × Int) :=
  (c.files.map (fun f => (f.name, f.entity_type_count, pyRound f.status.2.2)),
   if corpusTypes c = 0 then Except.error PyError.zeroDivision
   else Except.ok (corpusTypes c,
     pyRound ((corpusTypesDone c : ℚ) / (corpusTypes c : ℚ) * 100)))

def etAcmeOrg : EntityType :=
  { text := "Acme Corp", entityClass := "ORG", link := none, mentions := [] }

def etJimPerson : EntityType :=
  { text := "Jim Lehrer", entityClass := "PERSON", link := none, mentions := [] }

def fileAcmePending : SourceFile :=
  { name := "cpb-aacip-507-0004"
    text := ""
    mentions := []
    data := [("Acme Corp", none), ("Jim Lehrer", none)] }

/-- A small annotator state: "Acme Corp" was just yielded by the traversal
(the cursor sits past it), nothing is annotated yet, and no suggestion was
computable. -/
def stDemo : AnnotatorState :=
  { corpus := { files := [fileAcmePending]
                entityTypes := [etAcmeOrg, etJimPerson]
                cursor := 1
                folder := "annotations-2022-jun" }
    nextEntity := some etAcmeOrg
    linkSuggestion := none
    store := { records := [] }
    contextSize := 12 }

def fileEmptyTypes : SourceFile :=
  { name := "cpb-aacip-507-0005", text := "", mentions := [], data := [] }

def corpusNoTypes : Corpus :=
  { files := [fileEmptyTypes], entityTypes := [], cursor := 0
    folder := "annotations-2022-jun" }

def corpusAllDone : Corpus :=
  { files := [fileJimA], entityTypes := [], cursor := 0
    folder := "annotations-2022-jun" }

theorem take_append_left {α : Type} (n : Nat) (l₁ l₂ : List α) (h : n ≤ l₁.length) :
    (l₁ ++ l₂).take n = l₁.take n := by
  induction l₁ generalizing n with
  | nil =>
    have : n = 0 := Nat.le_zero.mp h
    simp [this]
  | cons a t ih =>
    cases n with
    | zero => simp
    | succ m =>
      simp only [List.cons_append, List.take_succ_cons]
      rw [ih m (Nat.le_of_succ_le_succ h)]

theorem isUrl_wikiBase_append (m : List Char) : isUrl (wikiBase ++ m) := by
  right
  rw [take_append_left 8 wikiBase m (by decide)]
  decide

theorem wikiBase_append_ne_empty_dash (m : List Char) :
    ¬(String.mk (wikiBase ++ m) = "" ∨ String.mk (wikiBase ++ m) = "-") := by
  rintro (h | h) <;>
  · have hd : wikiBase ++ m = _ := congrArg String.data h
    have hlen := congrArg List.length hd
    simp [wikiBase] at hlen

/-- C8: `normalize_link` is idempotent: for every input string — the dash
sentinel, bare titles with or without spaces, and full URLs alike —
normalizing twice equals normalizing once. -/
theorem normalize_link_idempotent (s : String) :
    normalize_link (normalize_link s) = normalize_link s := by
  by_cases h1 : s = "" ∨ s = "-"
  · have h : normalize_link s = "" := by rw [normalize_link, if_pos h1]
    rw [h, normalize_link]
    simp
  · by_cases h2 : isUrl s.data
    · have h : normalize_link s = s := by rw [normalize_link, if_neg h1, if_pos h2]
      rw [h]
      exact h
    · have h : normalize_link s
          = String.mk (wikiBase ++ s.data.map (fun c => if c = ' ' then '_' else c)) := by
        rw [normalize_link, if_neg h1, if_neg h2]
      rw [h, normalize_link, if_neg (wikiBase_append_ne_empty_dash _),
        if_pos (isUrl_wikiBase_append _)]

theorem champion_mem (cnt : String → Nat) (xs : List String) (b : String) :
    champion cnt b xs ∈ b :: xs := by
  induction xs generalizing b with
  | nil => simp [champion]
  | cons x t ih =>
    rw [champion]
    by_cases h : cnt b < cnt x
    · rw [if_pos h]
      rcases List.mem_cons.mp (ih x) with h1 | h1
      · rw [h1]; exact List.mem_cons_of_mem _ (List.mem_cons_self _ _)
      · exact List.mem_cons_of_mem _ (List.mem_cons_of_mem _ h1)
    · rw [if_neg h]
      rcases List.mem_cons.mp (ih b) with h1 | h1
      · rw [h1]; exact List.mem_cons_self _ _
      · exact List.mem_cons_of_mem _ (List.mem_cons_of_mem _ h1)

theorem champion_ge (cnt : String → Nat) (xs : List String) (b : String) :
    ∀ y ∈ b :: xs, cnt y ≤ cnt (champion cnt b xs) := by
  induction xs generalizing b with
  | nil =>
    intro y hy
    rw [List.mem_singleton] at hy
    subst hy
    simp [champion]
  | cons x t ih =>
    intro y hy
    rw [champion]
    rcases List.mem_cons.mp hy with h1 | h1
    · subst h1
      by_cases h : cnt y < cnt x
      · rw [if_pos h]
        exact le_trans (le_of_lt h) (ih x x (List.mem_cons_self _ _))
      · rw [if_neg h]
        exact ih y y (List.mem_cons_self _ _)
    · by_cases h : cnt b < cnt x
      · rw [if_pos h]
        exact ih x y h1
      · rw [if_neg h]
        rcases List.mem_cons.mp h1 with h2 | h2
        · subst h2
          exact le_trans (Nat.not_lt.mp h) (ih b b (List.mem_cons_self _ _))
        · exact ih b y (List.mem_cons_of_mem _ h2)

theorem champion_first (cnt : String → Nat) (xs : List String) (b : String) :
    ∃ pre post, b :: xs = pre ++ champion cnt b xs :: post ∧
      ∀ y ∈ pre, cnt y < cnt (champion cnt b xs) := by
  induction xs generalizing b with
  | nil => exact ⟨[], [], by simp [champion], by simp⟩
  | cons x t ih =>
    rw [champion]
    by_cases h : cnt b < cnt x
    · rw [if_pos h]
      obtain ⟨pre, post, hdec, hlt⟩ := ih x
      refine ⟨b :: pre, post, ?_, ?_⟩
      · rw [List.cons_append, ← hdec]
      · intro y hy
        rcases List.mem_cons.mp hy with h1 | h1
        · subst h1
          exact lt_of_lt_of_le h (champion_ge cnt t x x (List.mem_cons_self _ _))
        · exact hlt y h1
    · rw [if_neg h]
      obtain ⟨pre, post, hdec, hlt⟩ := ih b
      cases pre with
      | nil =>
        rw [List.nil_append] at hdec
        refine ⟨[], x :: post, ?_, by simp⟩
        rw [List.nil_append]
        rw [List.cons.injEq] at hdec
        rw [← hdec.1, ← hdec.2]
      | cons p ps =>
        rw [List.cons_append, List.cons.injEq] at hdec
        refine ⟨b :: x :: ps, post, ?_, ?_⟩
        · rw [List.cons_append, List.cons_append]
          conv_lhs => rw [hdec.2]
        · intro y hy
          rcases List.mem_cons.mp hy with h1 | h1
          · subst h1
            have := hlt p (List.mem_cons_self _ _)
            rw [← hdec.1] at this
            exact this
          · rcases List.mem_cons.mp h1 with h2 | h2
            · subst h2
              have hb := hlt p (List.mem_cons_self _ _)
              rw [← hdec.1] at hb
              exact lt_of_le_of_lt (Nat.not_lt.mp h) hb
            · exact hlt y (List.mem_cons_of_mem _ h2)

theorem mem_dedupFirstAux (l : List String) :
    ∀ seen y, y ∈ dedupFirstAux seen l ↔ (y ∈ l ∧ y ∉ seen) := by
  induction l with
  | nil => intro seen y; simp [dedupFirstAux]
  | cons x xs ih =>
    intro seen y
    rw [dedupFirstAux]
    by_cases h : x ∈ seen
    · rw [if_pos h, ih]
      constructor
      · rintro ⟨h1, h2⟩
        exact ⟨List.mem_cons_of_mem _ h1, h2⟩
      · rintro ⟨h1, h2⟩
        rcases List.mem_cons.mp h1 with h3 | h3
        · subst h3; exact absurd h h2
        · exact ⟨h3, h2⟩
    · rw [if_neg h]
      constructor
      · intro h1
        rcases List.mem_cons.mp h1 with h3 | h3
        · subst h3; exact ⟨List.mem_cons_self _ _, h⟩
        · obtain ⟨h4, h5⟩ := (ih _ y).mp h3
          refine ⟨List.mem_cons_of_mem _ h4, ?_⟩
          intro hc
          exact h5 (List.mem_cons_of_mem _ hc)
      · rintro ⟨h1, h2⟩
        rcases List.mem_cons.mp h1 with h3 | h3
        · subst h3; exact List.mem_cons_self _ _
        · by_cases h4 : y = x
          · subst h4; exact List.mem_cons_self _ _
          · refine List.mem_cons_of_mem _ ((ih _ y).mpr ⟨h3, ?_⟩)
            intro hc
            rcases List.mem_cons.mp hc with h5 | h5
            · exact h4 h5
            · exact h2 h5

theorem mem_dedupFirst (l : List String) (y : String) :
    y ∈ dedupFirst l ↔ y ∈ l := by
  rw [dedupFirst, mem_dedupFirstAux]
  simp

theorem mostCommon_nil : mostCommon [] = none := rfl

theorem mostCommon_isSome (l : List String) (h : l ≠ []) :
    ∃ m, mostCommon l = some m := by
  cases l with
  | nil => exact absurd rfl h
  | cons x xs =>
    rw [mostCommon]
    have : dedupFirst (x :: xs) = x :: dedupFirstAux [x] xs := by
      rw [dedupFirst, dedupFirstAux, if_neg (List.not_mem_nil x)]
    rw [this]
    exact ⟨_, rfl⟩

theorem mostCommon_sound (l : List String) (m : String) (h : mostCommon l = some m) :
    m ∈ l ∧ (∀ y ∈ l, l.count y ≤ l.count m) ∧
      ∃ pre post, dedupFirst l = pre ++ m :: post ∧
        ∀ y ∈ pre, l.count y < l.count m := by
  rw [mostCommon] at h
  rcases hd : dedupFirst l with _ | ⟨x, xs⟩
  · rw [hd] at h; exact absurd h (by simp)
  · rw [hd] at h
    have hm : m = champion (fun y => l.count y) x xs := by
      have := Option.some.injEq _ _ ▸ h
      exact (Option.some.inj h).symm
    subst hm
    refine ⟨?_, ?_, ?_⟩
    · have := champion_mem (fun y => l.count y) xs x
      rw [← hd] at this
      exact (mem_dedupFirst l _).mp this
    · intro y hy
      have hy' : y ∈ x :: xs := by
        rw [← hd]
        exact (mem_dedupFirst l y).mpr hy
      exact champion_ge (fun y => l.count y) xs x y hy'
    · obtain ⟨pre, post, hdec, hlt⟩ := champion_first (fun y => l.count y) xs x
      exact ⟨pre, post, hdec, hlt⟩

theorem mostCommon_all_eq (l : List String) (a : String) (h : l ≠ [])
    (hall : ∀ x ∈ l, x = a) : mostCommon l = some a := by
  obtain ⟨m, hm⟩ := mostCommon_isSome l h
  have := (mostCommon_sound l m hm).1
  rw [hm, hall m this]

theorem mem_collectSuggestions (files : List SourceFile) (t : String) (x : String) :
    x ∈ collectSuggestions files t
      ↔ ∃ f ∈ files, (List.lookup t f.data).bind id = some x := by
  rw [collectSuggestions, List.mem_filterMap]

/-- C5: `suggest_link` returns the most frequent among the non-null links
recorded for exactly the given surface string across the corpus's
SourceFiles; ties are broken deterministically in favour of the
first-encountered link (every distinct link encountered before the returned
one has a strictly smaller count); none is returned when no prior link
exists; and when every prior occurrence carries one same link, that link is
returned.  Determinism of repeated calls is immediate, `suggest_link` being a
pure function of the corpus state. -/
theorem suggest_link_most_frequent (files : List SourceFile) (t : String) :
    (collectSuggestions files t = [] → suggest_link files t = none) ∧
    (∀ m, suggest_link files t = some m →
      m ∈ collectSuggestions files t ∧
      (∀ y ∈ collectSuggestions files t,
        (collectSuggestions files t).count y ≤ (collectSuggestions files t).count m) ∧
      ∃ pre post, dedupFirst (collectSuggestions files t) = pre ++ m :: post ∧
        ∀ y ∈ pre,
          (collectSuggestions files t).count y < (collectSuggestions files t).count m) ∧
    (∀ l, collectSuggestions files t ≠ [] →
      (∀ x ∈ collectSuggestions files t, x = l) → suggest_link files t = some l) := by
  refine ⟨?_, ?_, ?_⟩
  · intro h
    rw [suggest_link, h]
    rfl
  · intro m hm
    exact mostCommon_sound _ m hm
  · intro l h hall
    exact mostCommon_all_eq _ l h hall

theorem suggest_link_most_frequent_witness :
    suggest_link [fileJimA, fileJimB] "Jim Lehrer"
      = some "https://en.wikipedia.org/wiki/Jim_Lehrer" :=
  (suggest_link_most_frequent [fileJimA, fileJimB] "Jim Lehrer").2.2
    "https://en.wikipedia.org/wiki/Jim_Lehrer" (by decide) (by decide)

/-- C9: each SourceFile contributes at most one vote per surface string to
`suggest_link` — the single resolved entry of its surface-text map — so the
tally ranges over files that have seen the string, never over individual
mentions: the vote list is never longer than the file list, and adding any
number of extra mentions of the string inside the files changes neither the
votes nor the suggestion. -/
theorem suggest_link_one_vote_per_file (files : List SourceFile) (t : String)
    (ms : List Mention) :
    (collectSuggestions files t).length ≤ files.length ∧
    collectSuggestions
        (files.map (fun f => { f with mentions := f.mentions ++ ms })) t
      = collectSuggestions files t ∧
    suggest_link (files.map (fun f => { f with mentions := f.mentions ++ ms })) t
      = suggest_link files t := by
  have hmap : collectSuggestions
      (files.map (fun f => { f with mentions := f.mentions ++ ms })) t
      = collectSuggestions files t := by
    rw [collectSuggestions, List.filterMap_map]
    rfl
  refine ⟨?_, hmap, ?_⟩
  · exact List.length_filterMap_le _ _
  · rw [suggest_link, suggest_link, hmap]

/-- C2 (amended): for a surface string whose only stored decision is the
empty-link sentinel, `suggest_link` does NOT return none: the scan drops only
null (not-yet-annotated) links, and the sentinel — being the non-null empty
string — is collected and returned as `some ""` (the command loop's
truthiness test then never displays it, but accept-suggestion would treat it
as present). -/
theorem suggest_link_sentinel_collected (files : List SourceFile) (t : String)
    (hall : ∀ f ∈ files, List.lookup t f.data = none
      ∨ List.lookup t f.data = some none
      ∨ List.lookup t f.data = some (some ""))
    (hex : ∃ f ∈ files, List.lookup t f.data = some (some "")) :
    suggest_link files t = some "" := by
  have h1 : ∀ x ∈ collectSuggestions files t, x = "" := by
    intro x hx
    obtain ⟨f, hf, heq⟩ := (mem_collectSuggestions files t x).mp hx
    rcases hall f hf with h | h | h <;> rw [h] at heq
    · exact absurd heq (by simp)
    · exact absurd heq (by simp)
    · simpa using heq.symm
  have h2 : collectSuggestions files t ≠ [] := by
    obtain ⟨f, hf, heq⟩ := hex
    refine List.ne_nil_of_mem ((mem_collectSuggestions files t "").mpr ⟨f, hf, ?_⟩)
    rw [heq]
    rfl
  exact mostCommon_all_eq _ "" h2 h1

theorem suggest_link_sentinel_collected_witness :
    suggest_link [fileAcme] "Acme Corp" = some "" :=
  suggest_link_sentinel_collected [fileAcme] "Acme Corp" (by decide)
    ⟨fileAcme, by decide⟩

theorem findNextOutstanding_gt (s : LinkStore) (l : List EntityType) :
    ∀ (i : Nat) (et : EntityType) (j : Nat),
      findNextOutstanding s l i = some (et, j) → i < j := by
  induction l with
  | nil =>
    intro i et j h
    exact absurd h (by simp [findNextOutstanding])
  | cons x xs ih =>
    intro i et j h
    rw [findNextOutstanding] at h
    by_cases hx : isAnnotated s x
    · rw [if_pos hx] at h
      exact Nat.lt_of_succ_lt (ih (i + 1) et j h)
    · rw [if_neg hx] at h
      simp only [Option.some.injEq, Prod.mk.injEq] at h
      omega

theorem findNextOutstanding_mem (s : LinkStore) (l : List EntityType) :
    ∀ (i : Nat) (et : EntityType) (j : Nat),
      findNextOutstanding s l i = some (et, j) → et ∈ l := by
  induction l with
  | nil =>
    intro i et j h
    exact absurd h (by simp [findNextOutstanding])
  | cons x xs ih =>
    intro i et j h
    rw [findNextOutstanding] at h
    by_cases hx : isAnnotated s x
    · rw [if_pos hx] at h
      exact List.mem_cons_of_mem _ (ih (i + 1) et j h)
    · rw [if_neg hx] at h
      simp only [Option.some.injEq, Prod.mk.injEq] at h
      rw [← h.1]
      exact List.mem_cons_self _ _

theorem corpusNext_sound (s : LinkStore) (c : Corpus) (et : EntityType) (c' : Corpus)
    (h : corpusNext s c = some (et, c')) :
    c.cursor < c'.cursor ∧ et ∈ c.entityTypes.drop c.cursor ∧
      c'.files = c.files ∧ c'.entityTypes = c.entityTypes := by
  rw [corpusNext] at h
  rcases hf : findNextOutstanding s (c.entityTypes.drop c.cursor) c.cursor
    with _ | ⟨et2, j⟩
  · rw [hf] at h
    exact absurd h (by simp)
  · rw [hf] at h
    simp only [Option.map_some', Option.some.injEq, Prod.mk.injEq] at h
    obtain ⟨he, hc'⟩ := h
    subst he
    have h1 := findNextOutstanding_gt s (c.entityTypes.drop c.cursor) c.cursor et2 j hf
    have h2 := findNextOutstanding_mem s (c.entityTypes.drop c.cursor) c.cursor et2 j hf
    rw [← hc']
    exact ⟨h1, h2, rfl, rfl⟩

theorem action_print_next_fields (st : AnnotatorState) :
    (action_print_next st).1.store = st.store ∧
    ((action_print_next st).1.corpus.cursor > st.corpus.cursor ∨
      (action_print_next st).1.nextEntity = none) ∧
    (∀ et c', corpusNext st.store st.corpus = some (et, c') →
      (action_print_next st).1.nextEntity = some et ∧
      (action_print_next st).1.corpus = c') ∧
    (corpusNext st.store st.corpus = none →
      (action_print_next st).1.nextEntity = none) := by
  rcases hc : corpusNext st.store st.corpus with _ | ⟨et, c'⟩
  · refine ⟨?_, Or.inr ?_, ?_, ?_⟩
    · simp only [action_print_next, hc]
    · simp only [action_print_next, hc]
    · simp only [action_print_next, hc]
      intro et2 c2 h2
      exact absurd h2 (by simp)
    · intro h2
      simp only [action_print_next, hc]
  · have h1 := corpusNext_sound st.store st.corpus et c' hc
    refine ⟨?_, Or.inl ?_, ?_, ?_⟩
    · simp only [action_print_next, hc]
    · simp only [action_print_next, hc]
      exact h1.1
    · simp only [action_print_next, hc]
      intro et2 c2 h2
      simp only [Option.some.injEq, Prod.mk.injEq] at h2
      rw [h2.1, h2.2]
      exact ⟨rfl, rfl⟩
    · simp only [action_print_next, hc]
      intro h2
      exact absurd h2 (by simp)

/-- C3 (amended): when accept-suggestion is invoked with a current entity
selected but no suggestion computed, the operation is recoverable — a
warning is emitted and no annotation is added — but the tool then displays
the NEXT entity rather than re-displaying the current one:
`action_print_next` invokes `corpus.next()`, so the traversal cursor
strictly advances (or the pass's terminal signal is reached), and any entity
the advanced traversal yields becomes the new current entity. -/
theorem accept_hint_no_suggestion_advances (st : AnnotatorState) (et : EntityType)
    (h1 : st.nextEntity = some et) (h2 : st.linkSuggestion = none) :
    (action_accept_hint st).1.store = st.store ∧
    Event.warnNoLinkSuggestion ∈ (action_accept_hint st).2 ∧
    ((action_accept_hint st).1.corpus.cursor > st.corpus.cursor ∨
      (action_accept_hint st).1.nextEntity = none) ∧
    (∀ et2 c', corpusNext st.store st.corpus = some (et2, c') →
      (action_accept_hint st).1.nextEntity = some et2 ∧
      (action_accept_hint st).1.corpus = c') := by
  have hfix : action_accept_hint st
      = ((action_print_next st).1,
         Event.warnNoLinkSuggestion :: (action_print_next st).2) := by
    simp [action_accept_hint, h1, h2]
  rw [hfix]
  have hf := action_print_next_fields st
  exact ⟨hf.1, List.mem_cons_self _ _, hf.2.1, hf.2.2.1⟩

/-- C3 (counterexample): in `stDemo` the current entity is "Acme Corp" with
no suggestion; accept-suggestion then fetches and displays "Jim Lehrer" and
moves the cursor from 1 to 2 — a new entity IS fetched and the cursor does
NOT stay on the current entity. -/
theorem accept_hint_no_suggestion_cex :
    stDemo.nextEntity = some etAcmeOrg ∧
    stDemo.linkSuggestion = none ∧
    (action_accept_hint stDemo).1.nextEntity = some etJimPerson ∧
    (action_accept_hint stDemo).1.nextEntity ≠ some etAcmeOrg ∧
    (action_accept_hint stDemo).1.corpus.cursor = 2 ∧
    stDemo.corpus.cursor = 1 := by
  decide

theorem accept_hint_no_suggestion_advances_witness :
    (action_accept_hint stDemo).1.store = stDemo.store ∧
    Event.warnNoLinkSuggestion ∈ (action_accept_hint stDemo).2 := by
  have h := accept_hint_no_suggestion_advances stDemo etAcmeOrg rfl rfl
  exact ⟨h.1, h.2.1⟩

/-- C6: whenever the normalized non-empty link fails the external existence
check, store-link creates no annotation record — the store is unchanged by
the command — and the emitted warning names exactly the rejected link
(Warnings.NOT_IN_WIKIPEDIA interpolated with that link). -/
theorem store_link_invalid_rejected (valid : String → Bool) (raw : String)
    (st : AnnotatorState) (et : EntityType)
    (h1 : st.nextEntity = some et)
    (h2 : normalize_link raw ≠ "")
    (h3 : valid (normalize_link raw) = false) :
    (action_store_link valid raw st).1.store = st.store ∧
    Event.warnNotInWikipedia (normalize_link raw)
      ∈ (action_store_link valid raw st).2 := by
  have hv : validate_link valid (normalize_link raw) = false := by
    rw [validate_link, if_neg h2]
    exact h3
  have hfix : action_store_link valid raw st
      = ((action_print_next st).1,
         Event.warnNotInWikipedia (normalize_link raw) :: (action_print_next st).2) := by
    simp [action_store_link, h1, hv]
  rw [hfix]
  exact ⟨(action_print_next_fields st).1, List.mem_cons_self _ _⟩

theorem store_link_invalid_rejected_witness :
    (action_store_link (fun _ => false) "Nosuch Page" stDemo).1.store = stDemo.store ∧
    Event.warnNotInWikipedia (normalize_link "Nosuch Page")
      ∈ (action_store_link (fun _ => false) "Nosuch Page" stDemo).2 :=
  store_link_invalid_rejected (fun _ => false) "Nosuch Page" stDemo etAcmeOrg rfl
    (by decide) rfl

/-- C10: with a current entity selected, store-link advances the traversal
regardless of the outcome: in both the accept and the reject branch
`action_print_next` runs, so the cursor strictly advances (or the pass's
terminal signal is reached); on rejection the store is unchanged — the
rejected entity is left unannotated — and since the cursor is already past
the current entity (whose surface text, by the grouping invariant, occurs
only once in the traversal list), the freshly displayed entity is never the
rejected one; on acceptance exactly one record is appended. -/
theorem store_link_always_advances (valid : String → Bool) (raw : String)
    (st : AnnotatorState) (et : EntityType) (h1 : st.nextEntity = some et) :
    ((action_store_link valid raw st).1.corpus.cursor > st.corpus.cursor ∨
      (action_store_link valid raw st).1.nextEntity = none) ∧
    (validate_link valid (normalize_link raw) = false →
      (action_store_link valid raw st).1.store = st.store ∧
      ((∀ p ∈ st.corpus.entityTypes.drop st.corpus.cursor, p.text ≠ et.text) →
        (action_store_link valid raw st).1.nextEntity ≠ some et)) ∧
    (validate_link valid (normalize_link raw) = true →
      (action_store_link valid raw st).1.store.records.length
        = st.store.records.length + 1) := by
  cases hv : validate_link valid (normalize_link raw) with
  | false =>
    have hfix : action_store_link valid raw st
        = ((action_print_next st).1,
           Event.warnNotInWikipedia (normalize_link raw) :: (action_print_next st).2) := by
      simp [action_store_link, h1, hv]
    rw [hfix]
    have hf := action_print_next_fields st
    refine ⟨hf.2.1, ?_, ?_⟩
    · intro _
      refine ⟨hf.1, ?_⟩
      intro hsk
      rcases hc : corpusNext st.store st.corpus with _ | ⟨et2, c'⟩
      · rw [hf.2.2.2 hc]
        simp
      · rw [(hf.2.2.1 et2 c' hc).1]
        intro heq
        have he : et2 = et := by
          simpa using heq
        have hm := (corpusNext_sound st.store st.corpus et2 c' hc).2.1
        rw [he] at hm
        exact hsk et hm rfl
    · intro hcontr
      exact absurd hcontr (by simp)
  | true =>
    have hfix : action_store_link valid raw st
        = action_print_next { st with
            corpus := { st.corpus with
              files := setLink st.corpus.files et.text (normalize_link raw) }
            nextEntity := some { et with link := some (normalize_link raw) }
            store := st.store.add_link { et with link := some (normalize_link raw) }
              (normalize_link raw) } := by
      simp [action_store_link, h1, hv]
    rw [hfix]
    have hf := action_print_next_fields { st with
      corpus := { st.corpus with
        files := setLink st.corpus.files et.text (normalize_link raw) }
      nextEntity := some { et with link := some (normalize_link raw) }
      store := st.store.add_link { et with link := some (normalize_link raw) }
        (normalize_link raw) }
    refine ⟨hf.2.1, ?_, ?_⟩
    · intro hcontr
      exact absurd hcontr (by simp)
    · intro _
      rw [hf.1]
      simp [LinkStore.add_link]

theorem store_link_always_advances_witness :
    ((action_store_link (fun _ => false) "Some Page" stDemo).1.corpus.cursor
        > stDemo.corpus.cursor ∨
      (action_store_link (fun _ => false) "Some Page" stDemo).1.nextEntity = none) ∧
    (action_store_link (fun _ => false) "Some Page" stDemo).1.store = stDemo.store := by
  have h := store_link_always_advances (fun _ => false) "Some Page" stDemo etAcmeOrg rfl
  exact ⟨h.1, (h.2.1 (by decide)).1⟩

/-- C2 (counterexample): in `stDemo` the user stores the dash for
"Acme Corp"; the stored decision is the empty-link sentinel, yet
`suggest_link` on "Acme Corp" afterwards returns `some ""` — the sentinel is
collected and proposed — not none as the claim states. -/
theorem suggest_after_sentinel_cex :
    suggest_link (action_store_link (fun _ => true) "-" stDemo).1.corpus.files
        "Acme Corp" = some "" ∧
    suggest_link (action_store_link (fun _ => true) "-" stDemo).1.corpus.files
        "Acme Corp" ≠ none := by
  decide

/-- C4 (code evaluated at the failing inputs): a fix-link request whose
identifier part does not parse as an integer raises ValueError out of
`int(identifier)` (main.py line 150) — and the dispatch loop has no handler,
so the exception terminates the process instead of being reported as a
recoverable input error; an argument with no space fails the two-variable
unpacking the same way; a well-formed request naming an absent record
identifier raises the store's NotFound condition.  No record is created in
any of these runs. -/
theorem fix_link_malformed_raises :
    action_fix_link (fun _ => true) "abc Jim_Lehrer" stDemo
      = Except.error PyError.valueError ∧
    action_fix_link (fun _ => true) "abc" stDemo = Except.error PyError.valueError ∧
    action_fix_link (fun _ => true) "77 Jim_Lehrer" stDemo
      = Except.error (PyError.notFound 77) := by
  refine ⟨rfl, rfl, rfl⟩

/-- C7 (amended): `set-context-size` stores ANY parsable integer verbatim —
a negative input is silently stored as the negative context size, neither
clamped to 0 nor rejected; only a non-integer input is rejected with a
warning, keeping the previous size; and size 0 renders empty context
windows without error. -/
theorem set_context_stores_any_integer (st : AnnotatorState) (s : String) (n : Int)
    (h : pyInt s = some n) :
    action_set_context s st = ({ st with contextSize := n }, []) ∧
    (∀ f m, get_context 0 f m = ("", "")) ∧
    (∀ s2, pyInt s2 = none →
      action_set_context s2 st = (st, [Event.warnContextSize])) := by
  refine ⟨?_, ?_, ?_⟩
  · simp [action_set_context, h]
  · intro f m
    rfl
  · intro s2 h2
    simp [action_set_context, h2]

/-- C7 (counterexample): `set-context-size -5` parses, is silently stored
(no warning), and leaves the negative size -5 in effect — neither clamped to
0 nor rejected in favour of the previous size 12. -/
theorem set_context_negative_cex :
    (action_set_context "-5" stDemo).1.contextSize = -5 ∧
    (action_set_context "-5" stDemo).2 = [] ∧
    stDemo.contextSize = 12 := by
  decide

theorem set_context_stores_any_integer_witness :
    action_set_context "0" stDemo = ({ stDemo with contextSize := 0 }, []) :=
  (set_context_stores_any_integer stDemo "0" 0 (by decide)).1

theorem pyRound_zero : pyRound 0 = 0 := by
  norm_num [pyRound]

/-- C1 (amended): per-file percentages are safe — a SourceFile with zero
entity types reports 0% — and for a fully annotated corpus with at least one
entity type the corpus-wide percentage is exactly 100; but when the corpus
has zero entity types in total the corpus-wide summary divides by zero, so
`status()` raises ZeroDivisionError instead of terminating normally. -/
theorem status_percentages (c : Corpus) :
    (∀ f ∈ c.files, f.data.length = 0 →
      f.status.2.2 = 0 ∧ pyRound f.status.2.2 = 0) ∧
    (corpusTypes c ≠ 0 → corpusTypesDone c = corpusTypes c →
      (Annotator.status c).2 = Except.ok (corpusTypes c, 100)) ∧
    (corpusTypes c = 0 →
      (Annotator.status c).2 = Except.error PyError.zeroDivision) := by
  refine ⟨?_, ?_, ?_⟩
  · intro f _ h0
    have hq : f.status.2.2 = 0 := by
      simp [SourceFile.status, h0]
    refine ⟨hq, ?_⟩
    rw [hq]
    exact pyRound_zero
  · intro hne hdone
    have ht : (corpusTypes c : ℚ) ≠ 0 := Nat.cast_ne_zero.mpr hne
    have hq : (corpusTypesDone c : ℚ) / (corpusTypes c : ℚ) * 100 = 100 := by
      rw [hdone, div_self ht, one_mul]
    have h100 : pyRound (100 : ℚ) = 100 := by
      have hfl : ⌊(100 : ℚ)⌋ = 100 := by
        have : (100 : ℚ) = ((100 : ℕ) : ℚ) := by norm_num
        rw [this, Int.floor_natCast]
        norm_num
      rw [pyRound, hfl]
      norm_num
    simp only [Annotator.status, if_neg hne, hq, h100]
  · intro h
    simp [Annotator.status, h]

/-- C1 (counterexample): a corpus whose single file has zero entity types —
the per-file row still reports 0% (the file-level guard holds) but the
corpus-wide summary raises ZeroDivisionError: `status()` does not terminate
normally on this state. -/
theorem status_zero_types_cex :
    (Annotator.status corpusNoTypes).1 = [("cpb-aacip-507-0005", 0, 0)] ∧
    (Annotator.status corpusNoTypes).2 = Except.error PyError.zeroDivision := by
  constructor
  · simp [Annotator.status, corpusNoTypes, fileEmptyTypes, SourceFile.status,
      SourceFile.entity_type_count, pyRound_zero]
  · rfl

theorem status_percentages_witness :
    (Annotator.status corpusAllDone).2 = Except.ok (1, 100) := by
  have h := (status_percentages corpusAllDone).2.1 (by decide) (by decide)
  have hc : corpusTypes corpusAllDone = 1 := by decide
  rw [hc] at h
  exact h
